import Mathlib

/-!
Verification of the `fyrte/mofu-templ` HTML template adapter (`src/html/html.go`)
via a shallow embedding in Lean 4.

The repository is a thin configuration/rendering wrapper over an external
template engine (Go's `html/template`).  The adapter's own logic — option
assembly, function-map merging, delimiter plumbing, i18n lookup, the
development-mode reload, and the layout-composition path — is translated
faithfully from the source.  Calls into the external engine (glob parsing,
template execution, cloning, `fmt.Sprintf`) are modelled as explicit total
functions over a concrete template-set representation; those models are
marked in their doc comments.  Concurrency (the two read/write locks) and
wall-clock diagnostics (`lastLoad`, the development-mode log line) are not
modelled: no claim is about them, and the embedding is sequential
state-passing.
-/

namespace MofuTempl

/-- Runtime values passed into template helpers (Go `any`). -/
inductive Value where
  | VNull : Value
  | VStr : String → Value
  | VInt : Int → Value
  | VBool : Bool → Value
  deriving Repr, DecidableEq

/-- Association-list lookup, modelling Go map read `m[k]` (with `ok`). -/
def lookupAssoc {α : Type} (m : List (String × α)) (k : String) : Option α :=
  (m.find? (fun p => p.1 = k)).map Prod.snd

/-- Association-list insert, modelling Go map write `m[k] = v`:
an existing binding for `k` is overwritten in place, otherwise the
binding is appended. -/
def insertAssoc {α : Type} (m : List (String × α)) (k : String) (v : α) :
    List (String × α) :=
  if m.any (fun p => p.1 = k) then
    m.map (fun p => if p.1 = k then (k, v) else p)
  else
    m ++ [(k, v)]

/-- The loop body of the `dict` helper (`html.go` lines 159-165): consume the
argument list two at a time; an even-index element that is not a string stops
the loop with the key-type error.  The single-element case is unreachable for
the even-length lists the caller admits, but is kept total. -/
def dictLoop : List Value → List (String × Value) →
    Except String (List (String × Value))
  | [], acc => .ok acc
  | Value.VStr k :: v :: rest, acc => dictLoop rest (insertAssoc acc k v)
  | _ :: _ :: _, _ => .error "dict keys must be strings"
  | [_], acc => .ok acc

/-- The `dict` template helper (`html.go` lines 154-167): rejects odd-length
argument lists, then folds alternating string keys and values into a map. -/
def dict (values : List Value) : Except String (List (String × Value)) :=
  if values.length % 2 ≠ 0 then .error "invalid dict call"
  else dictLoop values []

/-- The alternating key/value shape of a `dict` argument list: `some ps`
exactly when the list has even length and every even index holds a string;
`ps` pairs each key with the following value, in order. -/
def toPairs : List Value → Option (List (String × Value))
  | [] => some []
  | Value.VStr k :: v :: rest => (toPairs rest).map (fun ps => (k, v) :: ps)
  | _ => none

/-- The i18n configuration (`html.go` lines 37-43): default language,
translation table, and the mutable current language.  The `sync.RWMutex`
is not modelled; all operations are sequential state-passing. -/
structure I18nConfig where
  DefaultLang : String
  Translations : List (String × List (String × String))
  currentLang : String
  deriving Repr, DecidableEq

/-- A plain rendering of a `Value` as text, used by the models of the
external formatting and execution calls. -/
def showValue : Value → String
  | .VNull => "null"
  | .VStr s => s
  | .VInt n => toString n
  | .VBool b => toString b

/-- Modelled from the spec: Go's `fmt.Sprintf` (standard library, external to
this repository) — a total, deterministic formatting function of the format
string and the argument list.  No claim depends on the formatted text itself,
only on `Translate` returning the formatted translation when arguments are
supplied; any total function of `(format, args)` is a faithful abstraction. -/
def sprintf (format : String) (args : List Value) : String :=
  format ++ String.join (args.map showValue)

/-- `I18nConfig.Translate` (`html.go` lines 329-353): resolve the lookup
language (current language, falling back to the default when unset), look the
language up in the table, then the key; either miss returns the key itself;
a hit is formatted with the arguments when any are supplied. -/
def I18nConfig.Translate (i : I18nConfig) (key : String) (args : List Value) :
    String :=
  let lang := if i.currentLang = "" then i.DefaultLang else i.currentLang
  match lookupAssoc i.Translations lang with
  | none => key
  | some translations =>
    match lookupAssoc translations key with
    | none => key
    | some translation =>
      if args.length > 0 then sprintf translation args else translation

/-- `I18nConfig.SetLanguage` (`html.go` lines 355-359). -/
def I18nConfig.SetLanguage (i : I18nConfig) (lang : String) : I18nConfig :=
  { i with currentLang := lang }

/-- `I18nConfig.CurrentLanguage` (`html.go` lines 361-365). -/
def I18nConfig.CurrentLanguage (i : I18nConfig) : String :=
  i.currentLang

/-- A sequential trace of i18n operations, used to state that reads do not
disturb the current language between two `SetLanguage` calls. -/
inductive I18nOp where
  | set : String → I18nOp
  | getLang : I18nOp
  | translate : String → List Value → I18nOp
  deriving Repr, DecidableEq

/-- Whether a trace element is a `SetLanguage` call. -/
def I18nOp.isSet : I18nOp → Bool
  | .set _ => true
  | _ => false

/-- Run a trace of i18n operations over the configuration state:
`SetLanguage` writes the current language; `CurrentLanguage` and `Translate`
only read (they take the read lock in the source). -/
def runI18nOps (i : I18nConfig) : List I18nOp → I18nConfig
  | [] => i
  | .set lang :: rest => runI18nOps (i.SetLanguage lang) rest
  | .getLang :: rest => runI18nOps i rest
  | .translate _ _ :: rest => runI18nOps i rest

/-- Modelled from the spec: the parsed template set of the external engine
(`html/template`'s `Template`).  The adapter only ever sets the delimiter
pair (`Delims`), adds named definitions (`ParseGlob`, the synthesized
`content` definition), clones, looks names up, and executes; the model keeps
exactly that state: the delimiter fields and a name-to-body association list
(later definitions of a name overwrite earlier ones, as in the engine). -/
structure GoTemplate where
  leftDelim : String
  rightDelim : String
  defs : List (String × String)
  deriving Repr, DecidableEq

/-- `template.New(name)`: a fresh template set with engine-default (empty)
delimiter fields and no definitions. -/
def GoTemplate.new (_name : String) : GoTemplate :=
  { leftDelim := "", rightDelim := "", defs := [] }

/-- `t.Delims(l, r)`: record the delimiter pair on the set. -/
def GoTemplate.delims (t : GoTemplate) (l r : String) : GoTemplate :=
  { t with leftDelim := l, rightDelim := r }

/-- `t.Lookup(name)`: the body of the named definition, if present. -/
def GoTemplate.lookup (t : GoTemplate) (name : String) : Option String :=
  lookupAssoc t.defs name

/-- Modelled from the spec: the filesystem as seen through the engine's
`ParseGlob` — for a pattern, either an error (I/O failure, a file that fails
to parse) or the list of matched files as (base name, template body) pairs. -/
structure FS where
  glob : String → Except String (List (String × String))

/-- Modelled from the spec: `t.ParseGlob(pattern)` — fails when the glob
errors or matches no file; otherwise every matched file is added as a definition
named by its base name (overwriting a same-named earlier definition). -/
def GoTemplate.parseGlob (t : GoTemplate) (fs : FS) (pattern : String) :
    Except String GoTemplate :=
  match fs.glob pattern with
  | .error e => .error e
  | .ok files =>
    if files.isEmpty then
      .error ("html/template: pattern matches no files: " ++ pattern)
    else
      .ok { t with
            defs := files.foldl (fun d f => insertAssoc d f.1 f.2) t.defs }

/-- Modelled from the spec: `t.Clone()` — a deep copy of the set, so that
definitions added to the copy never reach the original.  In state-passing
style the copy is the value itself; the error case of the engine (clone
after execution) cannot arise for the adapter's usage and is not modelled. -/
def GoTemplate.clone (t : GoTemplate) : Except String GoTemplate :=
  .ok t

/-- Modelled from the spec: template execution
(`t.ExecuteTemplate(w, name, data)`) — a miss of the name is the engine's
not-found error; a hit deterministically renders the body against the data.
The rendering function itself is abstract glue (the template language is
external); the model emits the body followed by the data, which is enough
to distinguish executions against different template sets. -/
def GoTemplate.executeTemplate (t : GoTemplate) (name : String)
    (data : Value) : Except String String :=
  match t.lookup name with
  | none => .error ("html/template: " ++ name ++ " is undefined")
  | some body => .ok (body ++ "|" ++ showValue data)

/-- The synthesized layout-composition definition (`html.go` line 218):
`tpl.New("content").Parse` of the define-action string built around the view
name; its net effect on the set is one added definition named `content`
whose body includes the view. -/
def GoTemplate.defineContent (t : GoTemplate) (view : String) :
    Except String GoTemplate :=
  .ok { t with
        defs := insertAssoc t.defs "content"
          ("\x7b\x7btemplate \"" ++ view ++ "\" .\x7d\x7d") }

/-- The adapter configuration (`html.go` lines 25-35).  `Funcs` keeps only
the user-supplied helper names: helper callables live outside the template
set and no claim inspects their bodies through the configuration. -/
structure Config where
  Funcs : List String
  Delimiters : List String
  Development : Bool
  AssetVersion : String
  DefaultLayout : String
  EnableCache : Bool
  TemplateDir : String
  AssetDir : String
  I18n : Option I18nConfig
  deriving Repr, DecidableEq

/-- Modelled from the spec: `filepath.Join` (Go standard library) for the
two-argument use `Join(dir, pattern)` on the adapter's non-empty, already
clean inputs: the separator-joined path. -/
def joinPath (dir pat : String) : String :=
  dir ++ "/" ++ pat

/-- The default configuration built by `Sparkle` before options are applied
(`html.go` lines 54-60). -/
def defaultConfig : Config :=
  { Funcs := []
    Delimiters := ["\x7b\x7b", "\x7d\x7d"]
    Development := false
    AssetVersion := ""
    DefaultLayout := ""
    EnableCache := true
    TemplateDir := "templates"
    AssetDir := "assets"
    I18n := none }

/-- `Sparkle(pattern, opts...)` (`html.go` lines 53-70): apply each option in
order to the default configuration and pair it with the pattern.  The
`Option` type is declared outside `src/` but is, per its use here, a
configuration mutator. -/
def Sparkle (pattern : String) (opts : List (Config → Config)) :
    String × Config :=
  (pattern, opts.foldl (fun c o => o c) defaultConfig)

/-- Results of adapter operations that can end in a Go runtime panic (slice
index out of range) in addition to returning a value or an error. -/
inductive GoResult (α : Type) where
  | ok : α → GoResult α
  | goerror : String → GoResult α
  | panic : String → GoResult α
  deriving Repr, DecidableEq

/-- Functorial action on the `ok` case of a `GoResult`; errors and panics
pass through. -/
def GoResult.map {α β : Type} (f : α → β) : GoResult α → GoResult β
  | .ok a => .ok (f a)
  | .goerror e => .goerror e
  | .panic m => .panic m

/-- `createTemplate` (`html.go` lines 96-114): a fresh template set, the
delimiter pair taken unconditionally from positions 0 and 1 of the
configured slice (a Go index out of range panics), the merged function set
(helper callables, irrelevant to the set's state here), then a glob parse of
`TemplateDir/pattern`. -/
def createTemplate (config : Config) (pattern : String) (fs : FS) :
    GoResult GoTemplate :=
  match config.Delimiters.get? 0, config.Delimiters.get? 1 with
  | some l, some r =>
    let t := (GoTemplate.new "").delims l r
    match t.parseGlob fs (joinPath config.TemplateDir pattern) with
    | .error e => .goerror e
    | .ok t => .ok t
  | _, _ => .panic "runtime error: index out of range"

/-- The adapter state (`html.go` lines 17-23).  The `sync.RWMutex` and the
diagnostic `lastLoad` timestamp are not modelled (sequential embedding, and
no claim mentions them). -/
structure HTMLTemplate where
  t : GoTemplate
  config : Config
  pattern : String
  deriving Repr, DecidableEq

/-- `reloadIfNeeded` (`html.go` lines 303-326): rebuild the template set
from scratch exactly as `createTemplate` does; only on full success is the
adapter's set replaced — a parse error leaves the adapter unchanged (the
source returns before the `h.t = t` assignment). -/
def reloadIfNeeded (h : HTMLTemplate) (fs : FS) : GoResult HTMLTemplate :=
  match h.config.Delimiters.get? 0, h.config.Delimiters.get? 1 with
  | some l, some r =>
    let t := (GoTemplate.new "").delims l r
    match t.parseGlob fs (joinPath h.config.TemplateDir h.pattern) with
    | .error e => .goerror e
    | .ok t => .ok { h with t := t }
  | _, _ => .panic "runtime error: index out of range"

/-- `validateTemplate` (`html.go` lines 264-277): the not-found check.  The
nil-engine branch is unreachable for a constructed adapter (the model's `t`
field is always present). -/
def validateTemplate (h : HTMLTemplate) (name : String) : Option String :=
  match h.t.lookup name with
  | some _ => none
  | none => some ("template " ++ name ++ " not found")

/-- What a render-style call leaves behind: the adapter state after the
call, the bytes written to the output sink, and the returned error if any. -/
structure RenderOutcome where
  state : HTMLTemplate
  written : String
  err : Option String
  deriving Repr, DecidableEq

/-- The body of `Render` after the development-mode reload (`html.go` lines
185-198): existence check, then execution streaming into the sink.  An
execution error writes nothing in the model (execution is atomic). -/
def renderCore (h : HTMLTemplate) (name : String) (data : Value) :
    RenderOutcome :=
  match validateTemplate h name with
  | some e => { state := h, written := "", err := some e }
  | none =>
    match h.t.executeTemplate name data with
    | .error e => { state := h, written := "", err := some e }
    | .ok out => { state := h, written := out, err := none }

/-- `Render` (`html.go` lines 175-199): in development mode first reload —
a reload error aborts the call wrapped as "failed to reload templates: …"
with nothing written and the adapter untouched; otherwise render against
the (possibly replaced) set.  The development-mode timing log is ignored. -/
def Render (h : HTMLTemplate) (fs : FS) (name : String) (data : Value) :
    GoResult RenderOutcome :=
  if h.config.Development then
    match reloadIfNeeded h fs with
    | .panic m => .panic m
    | .goerror e =>
      .ok { state := h, written := ""
            err := some ("failed to reload templates: " ++ e) }
    | .ok h2 => .ok (renderCore h2 name data)
  else
    .ok (renderCore h name data)

/-- The layout render request (`html.go` lines 46-50), passed by pointer. -/
structure RenderData where
  Layout : String
  View : String
  Data : Value
  deriving Repr, DecidableEq

/-- What a `RenderWithLayout` call leaves behind: adapter state, the
caller's `RenderData` struct after the call (it is shared by pointer and may
be written), the bytes written, and the returned error. -/
structure LayoutOutcome where
  state : HTMLTemplate
  renderData : RenderData
  written : String
  err : Option String
  deriving Repr, DecidableEq

/-- The layout name a `RenderWithLayout` call acts on (`html.go` lines
203-205): the requested one, or the configured default when the request
leaves it empty and a default is configured. -/
def effectiveLayout (h : HTMLTemplate) (rd : RenderData) : String :=
  if rd.Layout = "" ∧ h.config.DefaultLayout ≠ "" then h.config.DefaultLayout
  else rd.Layout

/-- `RenderWithLayout` (`html.go` lines 202-224): default the layout name
into the caller's struct (`effectiveLayout` is exactly the conditional
assignment of lines 203-205), fall through to `Render` when still empty,
otherwise clone the canonical set, synthesize the `content` definition in
the clone, and execute the layout there. -/
def RenderWithLayout (h : HTMLTemplate) (fs : FS) (renderData : RenderData) :
    GoResult LayoutOutcome :=
  let rd := { renderData with Layout := effectiveLayout h renderData }
  if rd.Layout = "" then
    match Render h fs rd.View rd.Data with
    | .panic m => .panic m
    | .goerror e => .goerror e
    | .ok o =>
      .ok { state := o.state, renderData := rd, written := o.written
            err := o.err }
  else
    match h.t.clone with
    | .error e =>
      .ok { state := h, renderData := rd, written := "", err := some e }
    | .ok tpl =>
      match tpl.defineContent rd.View with
      | .error e =>
        .ok { state := h, renderData := rd, written := "", err := some e }
      | .ok tpl =>
        match tpl.executeTemplate rd.Layout rd.Data with
        | .error e =>
          .ok { state := h, renderData := rd, written := "", err := some e }
        | .ok out =>
          .ok { state := h, renderData := rd, written := out, err := none }

/-- `TemplateNames` (`html.go` lines 249-258): the names of the canonical
set's definitions, in the set's enumeration order. -/
def TemplateNames (h : HTMLTemplate) : List String :=
  h.t.defs.map Prod.fst

/-- `HasTemplate` (`html.go` lines 260-262). -/
def HasTemplate (h : HTMLTemplate) (name : String) : Bool :=
  validateTemplate h name = none

/-- The lookup language of `Translate` (`html.go` lines 333-336): the
current language, or the default language when the current one is unset. -/
def effectiveLang (i : I18nConfig) : String :=
  if i.currentLang = "" then i.DefaultLang else i.currentLang

/-! Concrete fixtures used by witnesses and counterexamples. -/

/-- Fixture: a filesystem with one matched template file. -/
def fsOne : FS := ⟨fun _ => .ok [("index.html", "BODY")]⟩

/-- Fixture: a filesystem whose glob always fails. -/
def fsErr : FS := ⟨fun _ => .error "boom"⟩

/-- Fixture: a configuration whose right delimiter is empty. -/
def cfgC1 : Config := { defaultConfig with Delimiters := ["<<", ""] }

/-- Fixture: a small translation table with current language unset. -/
def i18nEn : I18nConfig :=
  { DefaultLang := "en"
    Translations := [("en", [("hello", "Hello")])]
    currentLang := "" }

/-- Fixture: a parsed template set holding a stale layout body `OLD`. -/
def tStale : GoTemplate :=
  { leftDelim := "\x7b\x7b", rightDelim := "\x7d\x7d"
    defs := [("layout.html", "OLD"), ("view.html", "V")] }

/-- Fixture: a development-mode adapter with a configured default layout,
holding the stale set `tStale`. -/
def hDevLayout : HTMLTemplate :=
  { t := tStale
    config := { defaultConfig with Development := true
                                   DefaultLayout := "layout.html" }
    pattern := "*.html" }

/-- Fixture: the filesystem after an edit on disk — the layout body is now
`NEW`. -/
def fsNew : FS := ⟨fun _ => .ok [("layout.html", "NEW"), ("view.html", "V")]⟩

/-- Fixture: a development-mode adapter with no default layout, holding a
single-file set. -/
def hDevPlain : HTMLTemplate :=
  { t := { leftDelim := "\x7b\x7b", rightDelim := "\x7d\x7d"
           defs := [("a.html", "A")] }
    config := { defaultConfig with Development := true }
    pattern := "*.html" }

/-- Fixture: the filesystem after a second file appeared on disk. -/
def fsTwo : FS := ⟨fun _ => .ok [("a.html", "A2"), ("b.html", "B")]⟩

/-- Fixture: a static-mode adapter over `tStale`. -/
def hStatic : HTMLTemplate :=
  { t := tStale
    config := { defaultConfig with DefaultLayout := "layout.html" }
    pattern := "*.html" }

/-- Fixture: a development-mode adapter used to exercise reload failure. -/
def hDevErr : HTMLTemplate :=
  { t := { leftDelim := "\x7b\x7b", rightDelim := "\x7d\x7d"
           defs := [("index.html", "BODY")] }
    config := { defaultConfig with Development := true }
    pattern := "*.html" }

/-- Fixture: a configuration whose delimiter slice has one element only. -/
def cfgShort : Config := { defaultConfig with Delimiters := ["<"] }

/-- Fixture: an adapter carrying the short delimiter slice. -/
def hShort : HTMLTemplate :=
  { t := tStale, config := cfgShort, pattern := "*.html" }

/-- Fixture: the template set parsed from `fsTwo`. -/
def tTwo : GoTemplate :=
  { leftDelim := "\x7b\x7b", rightDelim := "\x7d\x7d"
    defs := [("a.html", "A2"), ("b.html", "B")] }

/-! Theorems. -/

/-- `ParseGlob` only adds definitions: the delimiter fields of the set are
unchanged. -/
theorem parseGlob_preserves_delims (t t2 : GoTemplate) (fs : FS)
    (p : String) (hp : t.parseGlob fs p = .ok t2) :
    t2.leftDelim = t.leftDelim ∧ t2.rightDelim = t.rightDelim := by
  unfold GoTemplate.parseGlob at hp
  split at hp
  · cases hp
  · split at hp
    · cases hp
    · cases hp; exact ⟨rfl, rfl⟩

/-- In static mode `Render` skips the reload and renders against the
current adapter. -/
theorem render_static (h : HTMLTemplate) (fs : FS) (name : String)
    (data : Value) (hdev : h.config.Development = false) :
    Render h fs name data = .ok (renderCore h name data) := by
  unfold Render
  rw [hdev, if_neg Bool.false_ne_true]

/-- In development mode, after a successful reload, `Render` renders
against the freshly rebuilt adapter. -/
theorem render_dev (h h2 : HTMLTemplate) (fs : FS) (name : String)
    (data : Value) (hdev : h.config.Development = true)
    (hrel : reloadIfNeeded h fs = .ok h2) :
    Render h fs name data = .ok (renderCore h2 name data) := by
  unfold Render
  rw [hdev, if_pos rfl, hrel]

/-- The post-reload body of `Render` never replaces the template set. -/
theorem renderCore_state (h : HTMLTemplate) (name : String) (data : Value) :
    (renderCore h name data).state = h := by
  unfold renderCore
  split
  · rfl
  · split <;> rfl

/-- On the layout path (non-empty effective layout), `RenderWithLayout`
works on the clone only: the canonical adapter state is returned untouched,
and the caller's request struct carries the effective layout name. -/
theorem rwl_layout_path_state (h : HTMLTemplate) (fs : FS)
    (rd : RenderData) (hL : effectiveLayout h rd ≠ "") (o : LayoutOutcome)
    (hcall : RenderWithLayout h fs rd = .ok o) :
    o.state = h ∧ o.renderData = { rd with Layout := effectiveLayout h rd }
    := by
  unfold RenderWithLayout at hcall
  rw [if_neg hL] at hcall
  simp only [GoTemplate.clone, GoTemplate.defineContent] at hcall
  split at hcall <;> cases hcall <;> exact ⟨rfl, rfl⟩

/-- With an empty effective layout, `RenderWithLayout` is a plain `Render`
of the view, its outcome re-packed with the (unchanged) request struct. -/
theorem rwl_fallthrough (h : HTMLTemplate) (fs : FS) (rd : RenderData)
    (hL : effectiveLayout h rd = "") :
    RenderWithLayout h fs rd =
      (Render h fs rd.View rd.Data).map (fun o =>
        { state := o.state
          renderData := { rd with Layout := effectiveLayout h rd }
          written := o.written, err := o.err }) := by
  unfold RenderWithLayout
  simp only [hL, if_true]
  cases hr : Render h fs rd.View rd.Data <;> simp [GoResult.map, hL]

/-- **C10**: engine construction (`createTemplate`) and development-mode
reload (`reloadIfNeeded`) index positions 0 and 1 of the configured
delimiter slice unconditionally: with at least two elements neither can
panic; the default configuration produced by `Sparkle` before options run
has exactly two; and any configuration left with fewer than two elements
makes both construction and reload panic with an index-out-of-range. -/
theorem C10_delimiter_indexing :
    (∀ cfg pat fs m, 2 ≤ cfg.Delimiters.length →
        createTemplate cfg pat fs ≠ GoResult.panic m) ∧
    (∀ h fs m, 2 ≤ h.config.Delimiters.length →
        reloadIfNeeded h fs ≠ GoResult.panic m) ∧
    (∀ pat, ((Sparkle pat []).2).Delimiters.length = 2) ∧
    (∀ cfg pat fs, cfg.Delimiters.length < 2 →
        createTemplate cfg pat fs
          = GoResult.panic "runtime error: index out of range") ∧
    (∀ h fs, h.config.Delimiters.length < 2 →
        reloadIfNeeded h fs
          = GoResult.panic "runtime error: index out of range") := by
  refine ⟨?_, ?_, ?_, ?_, ?_⟩
  · intro cfg pat fs m hlen
    unfold createTemplate
    rcases hD : cfg.Delimiters with _ | ⟨a, _ | ⟨b, tl⟩⟩
    · rw [hD] at hlen; simp at hlen
    · rw [hD] at hlen; simp at hlen
    · simp only [List.get?]
      cases hp : ((GoTemplate.new "").delims a b).parseGlob fs
          (joinPath cfg.TemplateDir pat) <;> simp [hp]
  · intro h fs m hlen
    unfold reloadIfNeeded
    rcases hD : h.config.Delimiters with _ | ⟨a, _ | ⟨b, tl⟩⟩
    · rw [hD] at hlen; simp at hlen
    · rw [hD] at hlen; simp at hlen
    · simp only [List.get?]
      cases hp : ((GoTemplate.new "").delims a b).parseGlob fs
          (joinPath h.config.TemplateDir h.pattern) <;> simp [hp]
  · intro pat
    rfl
  · intro cfg pat fs hlen
    unfold createTemplate
    rcases hD : cfg.Delimiters with _ | ⟨a, _ | ⟨b, tl⟩⟩
    · simp only [List.get?]
    · simp only [List.get?]
    · rw [hD] at hlen; simp at hlen; omega
  · intro h fs hlen
    unfold reloadIfNeeded
    rcases hD : h.config.Delimiters with _ | ⟨a, _ | ⟨b, tl⟩⟩
    · simp only [List.get?]
    · simp only [List.get?]
    · rw [hD] at hlen; simp at hlen; omega

/-- Witness for C10 at concrete configurations: two delimiters do not
panic, one delimiter panics, and the default slice has two entries. -/
theorem C10_delimiter_indexing_witness :
    (createTemplate defaultConfig "*.html" fsOne
        ≠ GoResult.panic "runtime error: index out of range") ∧
    (reloadIfNeeded hStatic fsOne
        ≠ GoResult.panic "runtime error: index out of range") ∧
    ((Sparkle "*.html" []).2.Delimiters.length = 2) ∧
    (createTemplate cfgShort "*.html" fsOne
        = GoResult.panic "runtime error: index out of range") ∧
    (reloadIfNeeded hShort fsOne
        = GoResult.panic "runtime error: index out of range") :=
  ⟨C10_delimiter_indexing.1 defaultConfig "*.html" fsOne _ (by decide),
   C10_delimiter_indexing.2.1 hStatic fsOne _ (by decide),
   C10_delimiter_indexing.2.2.1 "*.html",
   C10_delimiter_indexing.2.2.2.1 cfgShort "*.html" fsOne (by decide),
   C10_delimiter_indexing.2.2.2.2 hShort fsOne (by decide)⟩

/-- **C1** (counterexample): with the configured pair `["<<", ""]` — the
right delimiter empty — construction still applies the pair: the parsed
set carries left delimiter `"<<"`, not the unapplied engine default. -/
theorem C1_delims_cex :
    createTemplate cfgC1 "*.html" fsOne =
      .ok { leftDelim := "<<", rightDelim := ""
            defs := [("index.html", "BODY")] } ∧
    ("<<" : String) ≠ "" ∧ (GoTemplate.new "").leftDelim = "" := by
  exact ⟨rfl, by decide, rfl⟩

/-- **C1** (amended): engine construction and development-mode reload pass
the configured delimiter pair (slice positions 0 and 1) to the engine
unconditionally — whether empty or not, the parsed set carries exactly the
configured pair. -/
theorem C1_delims_applied_unconditionally (cfg : Config) (pattern : String)
    (fs : FS) (l r : String)
    (hl : cfg.Delimiters.get? 0 = some l)
    (hr : cfg.Delimiters.get? 1 = some r) :
    (∀ t, createTemplate cfg pattern fs = .ok t →
        t.leftDelim = l ∧ t.rightDelim = r) ∧
    (∀ h h2, h.config = cfg → reloadIfNeeded h fs = .ok h2 →
        h2.t.leftDelim = l ∧ h2.t.rightDelim = r) := by
  constructor
  · intro t ht
    unfold createTemplate at ht
    simp only [hl, hr] at ht
    split at ht
    · cases ht
    · cases ht
      next t2 hp =>
        exact parseGlob_preserves_delims _ _ _ _ hp
  · intro h h2 hcfg hrel
    unfold reloadIfNeeded at hrel
    simp only [hcfg, hl, hr] at hrel
    split at hrel
    · cases hrel
    · cases hrel
      next t2 hp =>
        exact parseGlob_preserves_delims _ _ _ _ hp

/-- Witness for C1's amended theorem at the counterexample configuration. -/
theorem C1_delims_applied_unconditionally_witness :
    ({ leftDelim := "<<", rightDelim := ""
       defs := [("index.html", "BODY")] } : GoTemplate).leftDelim = "<<" ∧
    ({ leftDelim := "<<", rightDelim := ""
       defs := [("index.html", "BODY")] } : GoTemplate).rightDelim = "" :=
  (C1_delims_applied_unconditionally cfgC1 "*.html" fsOne "<<" ""
      (by decide) (by decide)).1
    { leftDelim := "<<", rightDelim := ""
      defs := [("index.html", "BODY")] } rfl

/-- **C3** (counterexample): in development mode, a `RenderWithLayout` call
whose effective layout is non-empty does not rebuild the template set —
while a reload against the changed disk would produce a different set, the
call returns the adapter unchanged and its output carries the stale layout
body `OLD`, not the on-disk body `NEW`. -/
theorem C3_dev_layout_no_reload_cex :
    hDevLayout.config.Development = true ∧
    reloadIfNeeded hDevLayout fsNew =
      .ok { hDevLayout with
            t := { leftDelim := "\x7b\x7b", rightDelim := "\x7d\x7d"
                   defs := [("layout.html", "NEW"), ("view.html", "V")] } } ∧
    RenderWithLayout hDevLayout fsNew
        { Layout := "", View := "view.html", Data := Value.VNull } =
      .ok { state := hDevLayout
            renderData := { Layout := "layout.html", View := "view.html"
                            Data := Value.VNull }
            written := "OLD|null", err := none } ∧
    ("OLD|null" : String) ≠ "NEW|null" :=
  ⟨rfl, rfl, rfl, by decide⟩

/-- **C3** (amended): in static mode every render leaves the
construction-time set in place; in development mode `Render` — and hence
`RenderWithLayout` when it falls through to a plain `Render` — executes
against the freshly reloaded adapter and keeps it; but `RenderWithLayout`
with a non-empty effective layout never rebuilds, leaving the adapter as it
was even in development mode. -/
theorem C3_reload_policy (h : HTMLTemplate) (fs : FS) (name : String)
    (data : Value) (rd : RenderData) :
    (h.config.Development = false →
      Render h fs name data = .ok (renderCore h name data) ∧
      (renderCore h name data).state = h ∧
      (∀ o, RenderWithLayout h fs rd = .ok o → o.state = h)) ∧
    (h.config.Development = true →
      ∀ h2, reloadIfNeeded h fs = .ok h2 →
        Render h fs name data = .ok (renderCore h2 name data) ∧
        (renderCore h2 name data).state = h2) ∧
    (effectiveLayout h rd ≠ "" →
      ∀ o, RenderWithLayout h fs rd = .ok o → o.state = h) := by
  refine ⟨?_, ?_, ?_⟩
  · intro hdev
    refine ⟨render_static h fs name data hdev,
            renderCore_state h name data, ?_⟩
    intro o hcall
    by_cases hL : effectiveLayout h rd = ""
    · rw [rwl_fallthrough h fs rd hL,
          render_static h fs rd.View rd.Data hdev] at hcall
      simp only [GoResult.map, GoResult.ok.injEq] at hcall
      subst hcall
      exact renderCore_state h rd.View rd.Data
    · exact (rwl_layout_path_state h fs rd hL o hcall).1
  · intro hdev h2 hrel
    exact ⟨render_dev h h2 fs name data hdev hrel,
           renderCore_state h2 name data⟩
  · intro hL o hcall
    exact (rwl_layout_path_state h fs rd hL o hcall).1

/-- Witness for C3's amended theorem: the development-mode `Render` against
the changed disk renders from the rebuilt set, and a static layout call
leaves the adapter state in place. -/
theorem C3_reload_policy_witness :
    Render hDevPlain fsTwo "a.html" Value.VNull =
      .ok (renderCore { hDevPlain with t := tTwo } "a.html" Value.VNull) ∧
    ({ state := hStatic
       renderData := { Layout := "layout.html", View := "view.html"
                       Data := Value.VNull }
       written := "OLD|null"
       err := none } : LayoutOutcome).state = hStatic :=
  ⟨((C3_reload_policy hDevPlain fsTwo "a.html" Value.VNull
      { Layout := "", View := "a.html", Data := Value.VNull }).2.1
      (by decide) { hDevPlain with t := tTwo } rfl).1,
   ((C3_reload_policy hStatic fsOne "view.html" Value.VNull
      { Layout := "", View := "view.html", Data := Value.VNull }).1
      (by decide)).2.2
     { state := hStatic
       renderData := { Layout := "layout.html", View := "view.html"
                       Data := Value.VNull }
       written := "OLD|null"
       err := none } rfl⟩

/-- **C5** (counterexample): in development mode, a `RenderWithLayout` call
that falls through to plain `Render` (no layout, no configured default)
replaces the canonical set through the reload, so the set of template
names differs before and after the call — against the claim's "same before
and after" for every layout and view name. -/
theorem C5_dev_fallthrough_cex :
    RenderWithLayout hDevPlain fsTwo
        { Layout := "", View := "a.html", Data := Value.VNull } =
      .ok { state := { hDevPlain with t := tTwo }
            renderData := { Layout := "", View := "a.html"
                            Data := Value.VNull }
            written := "A2|null", err := none } ∧
    TemplateNames { hDevPlain with t := tTwo } ≠ TemplateNames hDevPlain :=
  ⟨rfl, by decide⟩

/-- **C5** (amended): a `RenderWithLayout` call with a non-empty effective
layout works only on a duplicate — the canonical parsed template set is
untouched, so the synthesized `content` definition never leaks into
`TemplateNames` and the name set is identical before and after; the same
holds for every call in static mode.  (In development mode the fallthrough
path may wholesale-replace the set via the reload.) -/
theorem C5_canonical_set_preserved (h : HTMLTemplate) (fs : FS)
    (rd : RenderData) (o : LayoutOutcome)
    (hcall : RenderWithLayout h fs rd = .ok o) :
    (effectiveLayout h rd ≠ "" →
      o.state = h ∧ TemplateNames o.state = TemplateNames h) ∧
    (h.config.Development = false →
      o.state = h ∧ TemplateNames o.state = TemplateNames h) := by
  constructor
  · intro hL
    have hst := (rwl_layout_path_state h fs rd hL o hcall).1
    exact ⟨hst, by rw [hst]⟩
  · intro hdev
    by_cases hL : effectiveLayout h rd = ""
    · rw [rwl_fallthrough h fs rd hL,
          render_static h fs rd.View rd.Data hdev] at hcall
      simp only [GoResult.map, GoResult.ok.injEq] at hcall
      subst hcall
      have hst : (renderCore h rd.View rd.Data).state = h :=
        renderCore_state h rd.View rd.Data
      exact ⟨hst, by
        show TemplateNames (renderCore h rd.View rd.Data).state
          = TemplateNames h
        rw [hst]⟩
    · have hst := (rwl_layout_path_state h fs rd hL o hcall).1
      exact ⟨hst, by rw [hst]⟩

/-- Witness for C5's amended theorem at a concrete static layout call. -/
theorem C5_canonical_set_preserved_witness :
    ({ state := hStatic
       renderData := { Layout := "layout.html", View := "view.html"
                       Data := Value.VNull }
       written := "OLD|null"
       err := none } : LayoutOutcome).state = hStatic ∧
    TemplateNames
        ({ state := hStatic
           renderData := { Layout := "layout.html", View := "view.html"
                           Data := Value.VNull }
           written := "OLD|null"
           err := none } : LayoutOutcome).state
      = TemplateNames hStatic :=
  (C5_canonical_set_preserved hStatic fsOne
      { Layout := "", View := "view.html", Data := Value.VNull }
      { state := hStatic
        renderData := { Layout := "layout.html", View := "view.html"
                        Data := Value.VNull }
        written := "OLD|null"
        err := none } rfl).1 (by decide)

/-- Inserting a key absent from an association list appends the binding. -/
theorem insertAssoc_of_fresh {α : Type} (m : List (String × α)) (k : String)
    (v : α) (hk : ∀ q ∈ m, q.1 ≠ k) : insertAssoc m k v = m ++ [(k, v)] := by
  have hc : ¬ ((m.any fun p => p.1 = k) = true) := by
    intro hc
    rw [List.any_eq_true] at hc
    obtain ⟨q, hq, hq2⟩ := hc
    exact hk q hq (by simpa using hq2)
  unfold insertAssoc
  rw [if_neg hc]

/-- A `some` result of `toPairs` accounts for exactly half the list. -/
theorem toPairs_length : ∀ (values : List Value) (ps : List (String × Value)),
    toPairs values = some ps → values.length = 2 * ps.length
  | [], ps, h => by
    simp only [toPairs, Option.some.injEq] at h
    subst h
    rfl
  | Value.VStr k :: v :: rest, ps, h => by
    simp only [toPairs, Option.map_eq_some'] at h
    obtain ⟨ps', hps', hg⟩ := h
    subst hg
    have := toPairs_length rest ps' hps'
    simp only [List.length_cons]
    omega
  | [Value.VNull], ps, h => by simp [toPairs] at h
  | [Value.VStr s], ps, h => by simp [toPairs] at h
  | [Value.VInt n], ps, h => by simp [toPairs] at h
  | [Value.VBool b], ps, h => by simp [toPairs] at h
  | Value.VNull :: v :: rest, ps, h => by simp [toPairs] at h
  | Value.VInt n :: v :: rest, ps, h => by simp [toPairs] at h
  | Value.VBool b :: v :: rest, ps, h => by simp [toPairs] at h

/-- The pairs extracted by `toPairs` sit at positions `2i` / `2i+1`. -/
theorem toPairs_get : ∀ (values : List Value) (ps : List (String × Value)),
    toPairs values = some ps → ∀ i (hi : i < ps.length),
      values.get? (2*i) = some (Value.VStr (ps.get ⟨i, hi⟩).1) ∧
      values.get? (2*i+1) = some ((ps.get ⟨i, hi⟩).2)
  | [], ps, h => by
    simp only [toPairs, Option.some.injEq] at h
    subst h
    intro i hi
    exact absurd hi (by simp)
  | Value.VStr k :: v :: rest, ps, h => by
    simp only [toPairs, Option.map_eq_some'] at h
    obtain ⟨ps', hps', hg⟩ := h
    subst hg
    intro i hi
    cases i with
    | zero => exact ⟨rfl, rfl⟩
    | succ j =>
      have hj : j < ps'.length := by simpa using hi
      have hrec := toPairs_get rest ps' hps' j hj
      constructor
      · have h2 : 2 * (j+1) = (2*j) + 1 + 1 := by omega
        rw [h2]
        simpa using hrec.1
      · have h2 : 2 * (j+1) + 1 = (2*j+1) + 1 + 1 := by omega
        rw [h2]
        simpa using hrec.2
  | [Value.VNull], ps, h => by simp [toPairs] at h
  | [Value.VStr s], ps, h => by simp [toPairs] at h
  | [Value.VInt n], ps, h => by simp [toPairs] at h
  | [Value.VBool b], ps, h => by simp [toPairs] at h
  | Value.VNull :: v :: rest, ps, h => by simp [toPairs] at h
  | Value.VInt n :: v :: rest, ps, h => by simp [toPairs] at h
  | Value.VBool b :: v :: rest, ps, h => by simp [toPairs] at h

/-- In an association list with pairwise-distinct keys, every binding is
found by `lookupAssoc`. -/
theorem lookupAssoc_mem_nodup : ∀ (ps : List (String × Value)),
    (ps.map Prod.fst).Nodup → ∀ p ∈ ps, lookupAssoc ps p.1 = some p.2
  | [], _, p, hp => absurd hp (by simp)
  | (k, v) :: tl, hnd, p, hp => by
    rcases List.mem_cons.mp hp with heq | htl
    · subst heq
      simp [lookupAssoc, List.find?]
    · have hndc : (k :: tl.map Prod.fst).Nodup := by
        rw [List.map_cons] at hnd; exact hnd
      have hnds := List.nodup_cons.mp hndc
      have hne : p.1 ≠ k := by
        intro he
        exact hnds.1 (he ▸ List.mem_map.mpr ⟨p, htl, rfl⟩)
      have hrec := lookupAssoc_mem_nodup tl hnds.2 p htl
      simp only [lookupAssoc] at hrec ⊢
      rw [List.find?_cons_of_neg]
      · exact hrec
      · simp [Ne.symm hne]

/-- The `dict` loop on an alternating list with pairwise-distinct keys
appends exactly the extracted pairs to the accumulator. -/
theorem dictLoop_of_toPairs : ∀ (values : List Value)
    (ps acc : List (String × Value)),
    toPairs values = some ps →
    (∀ p ∈ ps, ∀ q ∈ acc, q.1 ≠ p.1) →
    (ps.map Prod.fst).Nodup →
    dictLoop values acc = .ok (acc ++ ps)
  | [], ps, acc, h, _, _ => by
    simp only [toPairs, Option.some.injEq] at h
    subst h
    simp [dictLoop]
  | Value.VStr k :: v :: rest, ps, acc, h, hdisj, hnd => by
    simp only [toPairs, Option.map_eq_some'] at h
    obtain ⟨ps', hps', hg⟩ := h
    subst hg
    have hins : insertAssoc acc k v = acc ++ [(k, v)] :=
      insertAssoc_of_fresh acc k v
        (fun q hq => hdisj (k, v) (List.mem_cons_self _ _) q hq)
    have hndc : (k :: ps'.map Prod.fst).Nodup := by
      rw [List.map_cons] at hnd; exact hnd
    have hnds := List.nodup_cons.mp hndc
    have hdisj' : ∀ p ∈ ps', ∀ q ∈ acc ++ [(k, v)], q.1 ≠ p.1 := by
      intro p hp q hq
      rcases List.mem_append.mp hq with hq1 | hq2
      · exact hdisj p (List.mem_cons_of_mem _ hp) q hq1
      · have hqe : q = (k, v) := by simpa using hq2
        subst hqe
        intro he
        have he' : k = p.1 := he
        exact hnds.1 (he' ▸ List.mem_map.mpr ⟨p, hp, rfl⟩)
    have hrec := dictLoop_of_toPairs rest ps' (acc ++ [(k, v)])
      hps' hdisj' hnds.2
    simp only [dictLoop, hins, hrec]
    simp
  | [Value.VNull], ps, acc, h, _, _ => by simp [toPairs] at h
  | [Value.VStr s], ps, acc, h, _, _ => by simp [toPairs] at h
  | [Value.VInt n], ps, acc, h, _, _ => by simp [toPairs] at h
  | [Value.VBool b], ps, acc, h, _, _ => by simp [toPairs] at h
  | Value.VNull :: v :: rest, ps, acc, h, _, _ => by simp [toPairs] at h
  | Value.VInt n :: v :: rest, ps, acc, h, _, _ => by simp [toPairs] at h
  | Value.VBool b :: v :: rest, ps, acc, h, _, _ => by simp [toPairs] at h

/-- On an even-length list with a non-string at some even index, the
`dict` loop reports the key-type error. -/
theorem dictLoop_err : ∀ (values : List Value) (acc : List (String × Value)),
    values.length % 2 = 0 → toPairs values = none →
    dictLoop values acc = .error "dict keys must be strings"
  | [], acc, _, h => by simp [toPairs] at h
  | Value.VStr k :: v :: rest, acc, hlen, h => by
    simp only [toPairs, Option.map_eq_none'] at h
    have hlen' : rest.length % 2 = 0 := by
      simp only [List.length_cons] at hlen
      omega
    have hrec := dictLoop_err rest (insertAssoc acc k v) hlen' h
    simp only [dictLoop]
    exact hrec
  | [Value.VNull], acc, hlen, h => by simp at hlen
  | [Value.VStr s], acc, hlen, h => by simp at hlen
  | [Value.VInt n], acc, hlen, h => by simp at hlen
  | [Value.VBool b], acc, hlen, h => by simp at hlen
  | Value.VNull :: v :: rest, acc, _, _ => by simp [dictLoop]
  | Value.VInt n :: v :: rest, acc, _, _ => by simp [dictLoop]
  | Value.VBool b :: v :: rest, acc, _, _ => by simp [dictLoop]

/-- **C4** (counterexample): at the even-length, all-string-keyed argument
list `["a", 1, "a", 2]` — a duplicated key — `dict` succeeds with a single
entry, not `len/2 = 2` entries, and maps `"a"` to the value after its last
occurrence, not to `list[1]`. -/
theorem C4_dict_dup_key_cex :
    dict [Value.VStr "a", Value.VInt 1, Value.VStr "a", Value.VInt 2] =
      .ok [("a", Value.VInt 2)] ∧
    ([("a", Value.VInt 2)] : List (String × Value)).length ≠
      ([Value.VStr "a", Value.VInt 1, Value.VStr "a",
        Value.VInt 2] : List Value).length / 2 ∧
    lookupAssoc [("a", Value.VInt 2)] "a" ≠ some (Value.VInt 1) := by
  refine ⟨rfl, by decide, by decide⟩

/-- **C4** (amended): for every even-length argument list whose every even
index holds a string and whose keys are pairwise distinct, `dict` returns a
mapping with exactly `len/2` entries in which each key `list[2i]` maps to
`list[2i+1]`, and no error; for every odd-length list it returns the
argument-count error; and for every even-length list holding a non-string
at an even index it returns the key-type error.  (With a duplicated key
the mapping is smaller and the last occurrence wins.) -/
theorem C4_dict_behavior (values : List Value) :
    (∀ ps, toPairs values = some ps → (ps.map Prod.fst).Nodup →
        dict values = .ok ps ∧
        ps.length = values.length / 2 ∧
        (∀ i, i < ps.length →
          ∃ k v, values.get? (2*i) = some (Value.VStr k) ∧
                 values.get? (2*i+1) = some v ∧
                 lookupAssoc ps k = some v)) ∧
    (values.length % 2 = 1 → dict values = .error "invalid dict call") ∧
    (values.length % 2 = 0 → toPairs values = none →
        dict values = .error "dict keys must be strings") := by
  refine ⟨?_, ?_, ?_⟩
  · intro ps hps hnd
    have hlen := toPairs_length values ps hps
    have hloop := dictLoop_of_toPairs values ps [] hps (by simp) hnd
    refine ⟨?_, by omega, ?_⟩
    · unfold dict
      rw [if_neg (by omega)]
      simpa using hloop
    · intro i hi
      obtain ⟨h1, h2⟩ := toPairs_get values ps hps i hi
      exact ⟨(ps.get ⟨i, hi⟩).1, (ps.get ⟨i, hi⟩).2, h1, h2,
             lookupAssoc_mem_nodup ps hnd _ (List.get_mem _ _ _)⟩
  · intro hodd
    unfold dict
    rw [if_pos (by omega)]
  · intro heven hnone
    unfold dict
    rw [if_neg (by omega)]
    exact dictLoop_err values [] heven hnone

/-- Witness for C4's amended theorem: a valid two-pair list, an odd list,
and an even list with a non-string key. -/
theorem C4_dict_behavior_witness :
    dict [Value.VStr "a", Value.VInt 1, Value.VStr "b", Value.VInt 2] =
      .ok [("a", Value.VInt 1), ("b", Value.VInt 2)] ∧
    dict [Value.VStr "a"] = .error "invalid dict call" ∧
    dict [Value.VInt 1, Value.VInt 2] =
      .error "dict keys must be strings" :=
  ⟨((C4_dict_behavior
      [Value.VStr "a", Value.VInt 1, Value.VStr "b", Value.VInt 2]).1
      [("a", Value.VInt 1), ("b", Value.VInt 2)] rfl (by decide)).1,
   (C4_dict_behavior [Value.VStr "a"]).2.1 (by decide),
   (C4_dict_behavior [Value.VInt 1, Value.VInt 2]).2.2 (by decide) rfl⟩

/-- Reads (`CurrentLanguage`, `Translate`) leave the i18n state unchanged. -/
theorem runI18nOps_no_set (i : I18nConfig) (ops : List I18nOp)
    (h : ∀ op ∈ ops, op.isSet = false) : runI18nOps i ops = i := by
  induction ops generalizing i with
  | nil => rfl
  | cons op rest ih =>
    cases op with
    | set lang =>
      have := h _ (List.mem_cons_self _ _)
      simp [I18nOp.isSet] at this
    | getLang => exact ih i (fun op hop => h op (List.mem_cons_of_mem _ hop))
    | translate k args =>
      exact ih i (fun op hop => h op (List.mem_cons_of_mem _ hop))

/-- **C8**: setting the current language and then reading it returns exactly
the language just set, and repeated reads (`CurrentLanguage`, `Translate`)
keep returning it as long as no further `SetLanguage` call intervenes. -/
theorem C8_set_then_get (i : I18nConfig) (lang : String)
    (ops : List I18nOp) (hops : ∀ op ∈ ops, op.isSet = false) :
    (i.SetLanguage lang).CurrentLanguage = lang ∧
    (runI18nOps (i.SetLanguage lang) ops).CurrentLanguage = lang := by
  constructor
  · rfl
  · rw [runI18nOps_no_set _ _ hops]
    rfl

/-- Witness for C8 at a concrete table, language and read-only trace. -/
theorem C8_set_then_get_witness :
    (i18nEn.SetLanguage "de").CurrentLanguage = "de" ∧
    (runI18nOps (i18nEn.SetLanguage "de")
        [I18nOp.getLang, I18nOp.translate "hello" []]).CurrentLanguage
      = "de" :=
  C8_set_then_get i18nEn "de" [I18nOp.getLang, I18nOp.translate "hello" []]
    (by decide)

/-- **C6**: translation lookup is total — a Lean function returns on every
input — and for every current-language/key pair: when the lookup language
(the current language, defaulted when unset) and the key are both present,
`Translate` returns the mapped format string, formatted against the
arguments when any are supplied; when the language or the key is unknown,
it returns the literal key unchanged. -/
theorem C6_translate_total (i : I18nConfig) (key : String)
    (args : List Value) :
    (∀ table tr, lookupAssoc i.Translations (effectiveLang i) = some table →
        lookupAssoc table key = some tr →
        i.Translate key args =
          if args.length > 0 then sprintf tr args else tr) ∧
    (lookupAssoc i.Translations (effectiveLang i) = none →
        i.Translate key args = key) ∧
    (∀ table, lookupAssoc i.Translations (effectiveLang i) = some table →
        lookupAssoc table key = none →
        i.Translate key args = key) := by
  unfold I18nConfig.Translate effectiveLang
  refine ⟨?_, ?_, ?_⟩
  · intro table tr h1 h2
    simp only [h1, h2]
  · intro h1
    simp only [h1]
  · intro table h1 h2
    simp only [h1, h2]

/-- Witness for C6: both a translated key (with and without arguments) and
an unknown key at a concrete table. -/
theorem C6_translate_total_witness :
    i18nEn.Translate "hello" [] = "Hello" ∧
    i18nEn.Translate "hello" [Value.VInt 3]
      = sprintf "Hello" [Value.VInt 3] ∧
    i18nEn.Translate "bye" [] = "bye" :=
  ⟨(C6_translate_total i18nEn "hello" []).1 [("hello", "Hello")] "Hello"
     (by decide) (by decide),
   (C6_translate_total i18nEn "hello" [Value.VInt 3]).1
     [("hello", "Hello")] "Hello" (by decide) (by decide),
   (C6_translate_total i18nEn "bye" []).2.2 [("hello", "Hello")]
     (by decide) (by decide)⟩

/-- **C7**: `RenderWithLayout` with an empty layout name behaves
identically to calling it with the configured default layout name
explicitly supplied, when one is configured; and when none is configured it
behaves exactly like a plain `Render` of the view — same adapter state,
same bytes written, same error or panic — with the caller's request struct
left unmodified. -/
theorem C7_empty_layout_fallback (h : HTMLTemplate) (fs : FS)
    (view : String) (data : Value) :
    (h.config.DefaultLayout ≠ "" →
      RenderWithLayout h fs { Layout := "", View := view, Data := data } =
        RenderWithLayout h fs
          { Layout := h.config.DefaultLayout, View := view, Data := data })
    ∧
    (h.config.DefaultLayout = "" →
      RenderWithLayout h fs { Layout := "", View := view, Data := data } =
        (Render h fs view data).map (fun o =>
          { state := o.state
            renderData := { Layout := "", View := view, Data := data }
            written := o.written, err := o.err })) := by
  constructor
  · intro hdef
    unfold RenderWithLayout
    rw [show effectiveLayout h { Layout := "", View := view, Data := data }
          = h.config.DefaultLayout from if_pos ⟨rfl, hdef⟩,
        show effectiveLayout h
            { Layout := h.config.DefaultLayout, View := view, Data := data }
          = h.config.DefaultLayout from if_neg (fun hc => hdef hc.1)]
  · intro hdef
    unfold RenderWithLayout
    rw [show effectiveLayout h { Layout := "", View := view, Data := data }
          = "" from by simp [effectiveLayout, hdef]]
    rw [if_pos rfl]
    cases hr : Render h fs view data <;> simp [GoResult.map]

/-- Witness for C7: both fallbacks at concrete adapters. -/
theorem C7_empty_layout_fallback_witness :
    (RenderWithLayout hStatic fsOne
        { Layout := "", View := "view.html", Data := Value.VNull } =
      RenderWithLayout hStatic fsOne
        { Layout := "layout.html", View := "view.html"
          Data := Value.VNull }) ∧
    (RenderWithLayout hDevPlain fsTwo
        { Layout := "", View := "a.html", Data := Value.VNull } =
      (Render hDevPlain fsTwo "a.html" Value.VNull).map (fun o =>
        { state := o.state
          renderData := { Layout := "", View := "a.html"
                          Data := Value.VNull }
          written := o.written, err := o.err })) :=
  ⟨(C7_empty_layout_fallback hStatic fsOne "view.html" Value.VNull).1
     (by decide),
   (C7_empty_layout_fallback hDevPlain fsTwo "a.html" Value.VNull).2
     (by decide)⟩

/-- **C2**: in development mode, when the reload's glob re-parse fails, the
`Render` call returns an error wrapping the reload failure, writes nothing
to the output sink, and leaves the adapter — in particular its parsed
template set — exactly as it was. -/
theorem C2_reload_failure_aborts (h : HTMLTemplate) (fs : FS)
    (name : String) (data : Value) (l r e : String)
    (hdev : h.config.Development = true)
    (hl : h.config.Delimiters.get? 0 = some l)
    (hr : h.config.Delimiters.get? 1 = some r)
    (hfail : ((GoTemplate.new "").delims l r).parseGlob fs
        (joinPath h.config.TemplateDir h.pattern) = .error e) :
    Render h fs name data =
      .ok { state := h, written := ""
            err := some ("failed to reload templates: " ++ e) } := by
  have hrel : reloadIfNeeded h fs = .goerror e := by
    unfold reloadIfNeeded
    simp only [hl, hr, hfail]
  unfold Render
  rw [hdev, hrel]
  rw [if_pos rfl]

/-- Witness for C2 at a concrete development-mode adapter whose reload
glob fails. -/
theorem C2_reload_failure_aborts_witness :
    Render hDevErr fsErr "index.html" Value.VNull =
      .ok { state := hDevErr, written := ""
            err := some ("failed to reload templates: " ++ "boom") } :=
  C2_reload_failure_aborts hDevErr fsErr "index.html" Value.VNull
    "\x7b\x7b" "\x7d\x7d" "boom" (by decide) (by decide) (by decide) rfl

/-- **C9**: a `RenderWithLayout` call with an empty layout name and a
non-empty configured default layout writes the default layout name into the
`Layout` field of the caller-supplied `RenderData` (shared by pointer), so
the caller's struct is observably different after the call returns. -/
theorem C9_default_layout_mutates_request (h : HTMLTemplate) (fs : FS)
    (view : String) (data : Value) (o : LayoutOutcome)
    (hdef : h.config.DefaultLayout ≠ "")
    (hcall : RenderWithLayout h fs
        { Layout := "", View := view, Data := data } = .ok o) :
    o.renderData.Layout = h.config.DefaultLayout ∧
    o.renderData ≠ { Layout := "", View := view, Data := data } := by
  have heff : effectiveLayout h { Layout := "", View := view, Data := data }
      = h.config.DefaultLayout := if_pos ⟨rfl, hdef⟩
  have hlay : o.renderData.Layout = h.config.DefaultLayout := by
    have := (rwl_layout_path_state h fs _ (by rw [heff]; exact hdef)
      o hcall).2
    rw [this, heff]
  refine ⟨hlay, ?_⟩
  intro heq
  rw [heq] at hlay
  exact hdef hlay.symm

/-- Witness for C9 at a concrete adapter and request. -/
theorem C9_default_layout_mutates_request_witness :
    ({ state := hStatic
       renderData := { Layout := "layout.html", View := "view.html"
                       Data := Value.VNull }
       written := "OLD|null"
       err := none } : LayoutOutcome).renderData.Layout
      = hStatic.config.DefaultLayout ∧
    ({ state := hStatic
       renderData := { Layout := "layout.html", View := "view.html"
                       Data := Value.VNull }
       written := "OLD|null"
       err := none } : LayoutOutcome).renderData
      ≠ { Layout := "", View := "view.html", Data := Value.VNull } :=
  C9_default_layout_mutates_request hStatic fsOne "view.html" Value.VNull
    _ (by decide) (by decide)

end MofuTempl
